import Mathlib

/-!
# GCE cloud-provider adapter (`gce.go`): shallow embedding and verification

The embedding follows
`Godeps/_workspace/src/github.com/GoogleCloudPlatform/kubernetes/pkg/cloudprovider/gce/gce.go`.

* A Go `string` is a sequence of bytes: `GoString := List UInt8`.  `len`, indexing and
  slicing are byte operations, as in Go.
* The remote compute service, the `hostname` sub-processes, `time.Sleep` and `glog` are the
  environment.  Every interaction is appended to a chronological trace (`List Call`); the
  environment's answer to a call is an arbitrary function of the trace up to and including
  that call (`Env`), which covers every deterministic provider behaviour, stateful or not.
* A Go function returning `(T, error)` is modelled by a pair `T × Option GoError`
  (`none` is the `nil` error).  A run-time panic (index or slice out of range) is the
  `Outcome.panicked` result.
-/

namespace GCE

/-! ## Strings -/

/-- A Go string: an immutable sequence of bytes. -/
abbrev GoString := List UInt8

/-- The bytes of a string literal (its UTF-8 encoding, which is how Go stores literals). -/
def utf8 (s : String) : GoString := s.toUTF8.data.toList

/-- Position of the first occurrence of byte `b` in `s`, if there is one. -/
def firstIndex? (b : UInt8) : GoString → Option Nat
  | [] => none
  | c :: cs => if c = b then some 0 else (firstIndex? b cs).map Nat.succ

/-- Position of the last occurrence of byte `b` in `s`, if there is one. -/
def lastIndex? (b : UInt8) : GoString → Option Nat
  | [] => none
  | c :: cs =>
    match lastIndex? b cs with
    | some i => some (i + 1)
    | none => if c = b then some 0 else none

/-- Go `strings.Index(s, sep)` for a one-byte separator: the byte index of the first
occurrence, or `-1`. -/
def stringsIndex (s : GoString) (sep : UInt8) : Int :=
  match firstIndex? sep s with
  | some i => (i : Int)
  | none => -1

/-- Go `strings.LastIndex(s, sep)` for a one-byte separator: the byte index of the last
occurrence, or `-1`. -/
def stringsLastIndex (s : GoString) (sep : UInt8) : Int :=
  match lastIndex? sep s with
  | some i => (i : Int)
  | none => -1

/-- The byte `'.'`. -/
def dot : UInt8 := 0x2E

/-- The byte `'-'`. -/
def dash : UInt8 := 0x2D

/-- A Go `error` value, identified by its message. -/
structure GoError where
  msg : GoString
  deriving DecidableEq, Repr

/-- The result of running code that may panic at run time. -/
inductive Outcome (α : Type) where
  | returned (a : α)
  | panicked
  deriving DecidableEq, Repr

/-! ## Naming normalizer (`canonicalizeInstanceName`, `getGceRegion`) -/

/-- Source: `canonicalizeInstanceName` (gce.go 193-199).
`ix := strings.Index(name, "."); if ix != -1 { name = name[:ix] }; return name`.
The slice bound is a valid index of `name` (`stringsIndex_lt`), so `name[:ix]` is
`List.take`. -/
def canonicalizeInstanceName (name : GoString) : GoString :=
  let ix := stringsIndex name dot
  if ix ≠ -1 then name.take ix.toNat else name

/-- Source: `getGceRegion` (gce.go 272-278).
`ix := strings.LastIndex(zone, "-")`; `-1` gives `("", fmt.Errorf("unexpected zone: %s", zone))`,
otherwise `(zone[:ix], nil)`. -/
def getGceRegion (zone : GoString) : GoString × Option GoError :=
  let ix := stringsLastIndex zone dash
  if ix = -1 then
    ([], some ⟨utf8 "unexpected zone: " ++ zone⟩)
  else
    (zone.take ix.toNat, none)

/-- The fields of `GCECloud` (gce.go 37-42) other than the service handle, which is the
environment. -/
structure GCECloud where
  projectID : GoString
  zone : GoString
  instanceRE : GoString := []
  deriving DecidableEq, Repr

/-- The type `cloudprovider.Zone`: the two fields `GetZone` fills in. -/
structure Zone where
  FailureDomain : GoString := []
  Region : GoString := []
  deriving DecidableEq, Repr

/-- Source: `GetZone` (gce.go 257-266). -/
def GetZone (gce : GCECloud) : Zone × Option GoError :=
  match getGceRegion gce.zone with
  | (_, some err) => ({}, some err)
  | (region, none) => ({ FailureDomain := gce.zone, Region := region }, none)

/-! ## Go library functions used by the adapter -/

/-- Go `strconv.Itoa` on the digits of a natural number. -/
def natDigits (n : Nat) : GoString := (Nat.toDigits 10 n).map (fun c => c.toNat.toUInt8)

/-- Go `strconv.Itoa`: the decimal representation of a (signed) `int`. -/
def strconvItoa : Int → GoString
  | Int.ofNat n => natDigits n
  | Int.negSucc n => dash :: natDigits (n + 1)

/-- Go `utf8.RuneError`. -/
def RuneError : Nat := 0xFFFD

/-- Whether `b` is a UTF-8 continuation byte (`10xxxxxx`). -/
def isCont (b : UInt8) : Bool := 0x80 ≤ b.toNat && b.toNat ≤ 0xBF

/-- Go `utf8.RuneStart`: the byte is not a continuation byte. -/
def RuneStart (b : UInt8) : Bool := !isCont b

/-- Go `utf8.DecodeRuneInString`: the first rune of `s` and its width in bytes.  An empty
string gives `(RuneError, 0)`; an invalid, truncated, overlong, surrogate or out-of-range
encoding gives `(RuneError, 1)`. -/
def decodeRune : GoString → Nat × Nat
  | [] => (RuneError, 0)
  | b0 :: rest =>
    let x0 := b0.toNat
    if x0 < 0x80 then (x0, 1)
    else if 0xC2 ≤ x0 && x0 ≤ 0xDF then
      match rest with
      | b1 :: _ =>
        if isCont b1 then ((x0 % 0x20) * 0x40 + b1.toNat % 0x40, 2) else (RuneError, 1)
      | _ => (RuneError, 1)
    else if 0xE0 ≤ x0 && x0 ≤ 0xEF then
      match rest with
      | b1 :: b2 :: _ =>
        let lo := if x0 = 0xE0 then 0xA0 else 0x80
        let hi := if x0 = 0xED then 0x9F else 0xBF
        if lo ≤ b1.toNat && b1.toNat ≤ hi && isCont b2 then
          ((x0 % 0x10) * 0x1000 + (b1.toNat % 0x40) * 0x40 + b2.toNat % 0x40, 3)
        else (RuneError, 1)
      | _ => (RuneError, 1)
    else if 0xF0 ≤ x0 && x0 ≤ 0xF4 then
      match rest with
      | b1 :: b2 :: b3 :: _ =>
        let lo := if x0 = 0xF0 then 0x90 else 0x80
        let hi := if x0 = 0xF4 then 0x8F else 0xBF
        if lo ≤ b1.toNat && b1.toNat ≤ hi && isCont b2 && isCont b3 then
          ((x0 % 0x08) * 0x40000 + (b1.toNat % 0x40) * 0x1000 + (b2.toNat % 0x40) * 0x40
            + b3.toNat % 0x40, 4)
        else (RuneError, 1)
      | _ => (RuneError, 1)
    else (RuneError, 1)

/-- The backwards scan of Go `utf8.DecodeLastRuneInString`:
`for start--; start >= lim; start-- { if RuneStart(s[start]) { break } }`,
entered with `start` already decremented once. -/
def scanRuneStart (s : GoString) (lim : Int) : Nat → Int → Int
  | 0, start => start
  | fuel + 1, start =>
    if lim ≤ start then
      if RuneStart (s.getD start.toNat 0) then start
      else scanRuneStart s lim fuel (start - 1)
    else start

/-- Go `utf8.DecodeLastRuneInString`: the last rune of `s` and its width in bytes. -/
def decodeLastRune (s : GoString) : Nat × Nat :=
  let e := s.length
  if e = 0 then (RuneError, 0)
  else
    let r := (s.getD (e - 1) 0).toNat
    if r < 0x80 then (r, 1)
    else
      let lim : Int := if (e : Int) - 4 < 0 then 0 else (e : Int) - 4
      let start0 := scanRuneStart s lim 4 ((e : Int) - 2)
      let start := if start0 < 0 then 0 else start0.toNat
      let (r, size) := decodeRune (s.drop start)
      if start + size ≠ e then (RuneError, 1) else (r, size)

/-- Go `unicode.IsSpace`: the Unicode White_Space property. -/
def isSpace (r : Nat) : Bool :=
  (0x09 ≤ r && r ≤ 0x0D) || r = 0x20 || r = 0x85 || r = 0xA0 || r = 0x1680
    || (0x2000 ≤ r && r ≤ 0x200A) || r = 0x2028 || r = 0x2029 || r = 0x202F
    || r = 0x205F || r = 0x3000

/-- Go `strings.TrimLeftFunc(s, unicode.IsSpace)`; `fuel` bounds the number of runes
inspected and `s.length` always suffices. -/
def trimLeftSpace : Nat → GoString → GoString
  | 0, s => s
  | fuel + 1, s =>
    match s with
    | [] => []
    | _ :: _ =>
      if isSpace (decodeRune s).1 then trimLeftSpace fuel (s.drop (decodeRune s).2) else s

/-- Go `strings.TrimRightFunc(s, unicode.IsSpace)`; `fuel` bounds the number of runes
inspected and `s.length` always suffices. -/
def trimRightSpace : Nat → GoString → GoString
  | 0, s => s
  | fuel + 1, s =>
    match s with
    | [] => []
    | _ :: _ =>
      if isSpace (decodeLastRune s).1 then
        trimRightSpace fuel (s.take (s.length - (decodeLastRune s).2))
      else s

/-- Go `strings.TrimSpace`: `s` without its leading and trailing Unicode white space. -/
def stringsTrimSpace (s : GoString) : GoString :=
  trimRightSpace s.length (trimLeftSpace s.length s)

/-! ## The provider's data (the fields of `compute/v1` the adapter reads or writes) -/

/-- The type `compute.TargetPool`. -/
structure TargetPool where
  Name : GoString
  Instances : List GoString
  deriving DecidableEq, Repr

/-- The type `compute.ForwardingRule`. -/
structure ForwardingRule where
  Name : GoString
  IPProtocol : GoString
  PortRange : GoString
  Target : GoString
  deriving DecidableEq, Repr

/-- The type `compute.InstanceReference`. -/
structure InstanceReference where
  Instance : GoString
  deriving DecidableEq, Repr

/-- The type `compute.TargetPoolsAddInstanceRequest`. -/
structure TargetPoolsAddInstanceRequest where
  Instances : List InstanceReference
  deriving DecidableEq, Repr

/-- The type `compute.Operation`. -/
structure Operation where
  Name : GoString
  Status : GoString
  deriving DecidableEq, Repr

/-- The type `compute.AccessConfig`. -/
structure AccessConfig where
  NatIP : GoString
  deriving DecidableEq, Repr

/-- The type `compute.NetworkInterface`. -/
structure NetworkInterface where
  AccessConfigs : List AccessConfig
  deriving DecidableEq, Repr

/-- The type `compute.Instance`. -/
structure Instance where
  Name : GoString
  NetworkInterfaces : List NetworkInterface
  deriving DecidableEq, Repr

/-- The type `compute.InstanceList`. -/
structure InstanceList where
  Items : List Instance
  deriving DecidableEq, Repr

/-! ## The environment -/

/-- One interaction of the adapter with its environment, with the arguments it passes. -/
inductive Call where
  /-- Go `service.ForwardingRules.Get(project, region, name).Do()` -/
  | ForwardingRulesGet (project region name : GoString)
  /-- Go `service.ForwardingRules.Insert(project, region, rule).Do()` -/
  | ForwardingRulesInsert (project region : GoString) (rule : ForwardingRule)
  /-- Go `service.ForwardingRules.Delete(project, region, name).Do()` -/
  | ForwardingRulesDelete (project region name : GoString)
  /-- Go `service.TargetPools.Insert(project, region, pool).Do()` -/
  | TargetPoolsInsert (project region : GoString) (pool : TargetPool)
  /-- Go `service.TargetPools.AddInstance(project, region, name, req).Do()` -/
  | TargetPoolsAddInstance (project region name : GoString)
      (req : TargetPoolsAddInstanceRequest)
  /-- Go `service.TargetPools.Delete(project, region, name).Do()` -/
  | TargetPoolsDelete (project region name : GoString)
  /-- Go `service.RegionOperations.Get(project, region, operation).Do()` -/
  | RegionOperationsGet (project region operation : GoString)
  /-- Go `service.Instances.Get(project, zone, instance).Do()` -/
  | InstancesGet (project zone inst : GoString)
  /-- Go `service.Instances.List(project, zone)[.Filter(filter)].Do()` -/
  | InstancesList (project zone : GoString) (filter : Option GoString)
  /-- Go `time.Sleep(d)`, the duration in nanoseconds -/
  | Sleep (nanoseconds : Nat)
  /-- Go `exec.Command(name, args...).Output()` -/
  | Exec (name : GoString) (args : List GoString)
  /-- Go `glog.Errorf`, with the formatted message -/
  | GlogErrorf (message : GoString)
  deriving DecidableEq, Repr

/-- The chronological record of the interactions so far. -/
abbrev Trace := List Call

/-- An environment: the answer to a call, as a function of the trace that ends with that
call.  One field per Go result type. -/
structure Env where
  /-- the answer to a call that returns `(*compute.Operation, error)` -/
  operation : Trace → Except GoError Operation
  /-- the answer to `ForwardingRules.Get` -/
  forwardingRule : Trace → Except GoError ForwardingRule
  /-- the answer to `Instances.Get` -/
  getInstance : Trace → Except GoError Instance
  /-- the answer to `Instances.List` -/
  listInstances : Trace → Except GoError InstanceList
  /-- the standard output of a sub-process -/
  output : Trace → Except GoError GoString

/-- The `error` half of a Go `(value, error)` answer. -/
def errOf {α : Type} : Except GoError α → Option GoError
  | .error err => some err
  | .ok _ => none

/-! ## Load balancer manager -/

/-- Source: `makeHostLink` (gce.go 108-112). -/
def makeHostLink (projectID zone host : GoString) : GoString :=
  let host := canonicalizeInstanceName host
  utf8 "https://www.googleapis.com/compute/v1/projects/" ++ projectID
    ++ utf8 "/zones/" ++ zone ++ utf8 "/instances/" ++ host

/-- Source: `makeTargetPool` (gce.go 114-129). -/
def GCECloud.makeTargetPool (env : Env) (gce : GCECloud) (name region : GoString)
    (hosts : List GoString) (t : Trace) : (GoString × Option GoError) × Trace :=
  let instances := hosts.foldl
    (fun instances host => instances ++ [makeHostLink gce.projectID gce.zone host]) []
  let pool : TargetPool := { Name := name, Instances := instances }
  let t1 := t ++ [Call.TargetPoolsInsert gce.projectID region pool]
  match env.operation t1 with
  | .error err => (([], some err), t1)
  | .ok _ =>
    let link := utf8 "https://www.googleapis.com/compute/v1/projects/" ++ gce.projectID
      ++ utf8 "/regions/" ++ region ++ utf8 "/targetPools/" ++ name
    ((link, none), t1)

/-- The Go constant `time.Second * 10`, in nanoseconds. -/
def tenSeconds : Nat := 10 * 1000000000

/-- The string `"DONE"`. -/
def DONE : GoString := utf8 "DONE"

/-- The loop of `waitForRegionOp` (gce.go 133-140) from the test of its condition, with
`pollOp` the operation last fetched.  `fuel` bounds the number of iterations; `none` means
the loop was still running when the fuel ran out. -/
def waitLoop (env : Env) (gce : GCECloud) (op : Operation) (region : GoString) :
    Nat → Operation → Trace → Option (Option GoError × Trace)
  | fuel, pollOp, t =>
    if pollOp.Status ≠ DONE then
      match fuel with
      | 0 => none
      | fuel + 1 =>
        let t1 := t ++ [Call.Sleep tenSeconds]
        let t2 := t1 ++ [Call.RegionOperationsGet gce.projectID region op.Name]
        match env.operation t2 with
        | .error err => some (some err, t2)
        | .ok pollOp => waitLoop env gce op region fuel pollOp t2
    else some (none, t)

/-- Source: `waitForRegionOp` (gce.go 131-142). -/
def GCECloud.waitForRegionOp (env : Env) (gce : GCECloud) (op : Operation)
    (region : GoString) (fuel : Nat) (t : Trace) : Option (Option GoError × Trace) :=
  waitLoop env gce op region fuel op t

/-- Source: `TCPLoadBalancerExists` (gce.go 145-148). -/
def GCECloud.TCPLoadBalancerExists (env : Env) (gce : GCECloud) (name region : GoString)
    (t : Trace) : (Bool × Option GoError) × Trace :=
  let t1 := t ++ [Call.ForwardingRulesGet gce.projectID region name]
  let err := errOf (env.forwardingRule t1)
  ((false, err), t1)

/-- Source: `CreateTCPLoadBalancer` (gce.go 151-164). -/
def GCECloud.CreateTCPLoadBalancer (env : Env) (gce : GCECloud) (name region : GoString)
    (port : Int) (hosts : List GoString) (t : Trace) : Option GoError × Trace :=
  match gce.makeTargetPool env name region hosts t with
  | ((_, some err), t1) => (some err, t1)
  | ((pool, none), t1) =>
    let req : ForwardingRule :=
      { Name := name, IPProtocol := utf8 "TCP", PortRange := strconvItoa port, Target := pool }
    let t2 := t1 ++ [Call.ForwardingRulesInsert gce.projectID region req]
    (errOf (env.operation t2), t2)

/-- Source: `UpdateTCPLoadBalancer` (gce.go 167-178). -/
def GCECloud.UpdateTCPLoadBalancer (env : Env) (gce : GCECloud) (name region : GoString)
    (hosts : List GoString) (t : Trace) : Option GoError × Trace :=
  let refs := hosts.foldl (fun refs host => refs ++ [InstanceReference.mk host]) []
  let req : TargetPoolsAddInstanceRequest := { Instances := refs }
  let t1 := t ++ [Call.TargetPoolsAddInstance gce.projectID region name req]
  (errOf (env.operation t1), t1)

/-- Source: `DeleteTCPLoadBalancer` (gce.go 181-188). -/
def GCECloud.DeleteTCPLoadBalancer (env : Env) (gce : GCECloud) (name region : GoString)
    (t : Trace) : Option GoError × Trace :=
  let t1 := t ++ [Call.ForwardingRulesDelete gce.projectID region name]
  match env.operation t1 with
  | .error err => (some err, t1)
  | .ok _ =>
    let t2 := t1 ++ [Call.TargetPoolsDelete gce.projectID region name]
    (errOf (env.operation t2), t2)

/-! ## Instance directory -/

/-- A `net.IP` value: a byte slice. -/
abbrev IP := List UInt8

/-- Source: `IPAddress` (gce.go 202-214).  `parseIP` is Go `net.ParseIP`, `none` its `nil`
result.  Indexing an empty slice with `[0]` panics. -/
def GCECloud.IPAddress (env : Env) (parseIP : GoString → Option IP) (gce : GCECloud)
    (inst : GoString) (t : Trace) : Outcome (Option IP × Option GoError) × Trace :=
  let inst := canonicalizeInstanceName inst
  let t1 := t ++ [Call.InstancesGet gce.projectID gce.zone inst]
  match env.getInstance t1 with
  | .error err =>
    let t2 := t1 ++ [Call.GlogErrorf
      (utf8 "Failed to retrieve TargetInstance resource for instance:" ++ inst)]
    (.returned (none, some err), t2)
  | .ok res =>
    match res.NetworkInterfaces[0]? with
    | none => (.panicked, t1)
    | some ni =>
      match ni.AccessConfigs[0]? with
      | none => (.panicked, t1)
      | some ac =>
        match parseIP ac.NatIP with
        | none => (.returned (none, some ⟨utf8 "Invalid network IP: " ++ ac.NatIP⟩), t1)
        | some ip => (.returned (some ip, none), t1)

/-- Source: `fqdnSuffix` (gce.go 217-227).  The slice `s[n:]` panics when `n > len(s)`. -/
def fqdnSuffix (env : Env) (t : Trace) : Outcome (GoString × Option GoError) × Trace :=
  let t1 := t ++ [Call.Exec (utf8 "hostname") [utf8 "-f"]]
  match env.output t1 with
  | .error err => (.returned ([], some err), t1)
  | .ok fullHostname =>
    let t2 := t1 ++ [Call.Exec (utf8 "hostname") []]
    match env.output t2 with
    | .error err => (.returned ([], some err), t2)
    | .ok hostname =>
      if hostname.length ≤ fullHostname.length then
        (.returned (stringsTrimSpace (fullHostname.drop hostname.length), none), t2)
      else (.panicked, t2)

/-- Source: `List` (gce.go 230-255). -/
def GCECloud.List (env : Env) (gce : GCECloud) (filter : GoString) (t : Trace) :
    Outcome (List GoString × Option GoError) × Trace :=
  match fqdnSuffix env t with
  | (.panicked, t1) => (.panicked, t1)
  | (.returned (_, some err), t1) => (.returned ([], some err), t1)
  | (.returned (suffix, none), t1) =>
    let suffix := if suffix.length > 0 then utf8 "." ++ suffix else suffix
    let listCall : Option GoString :=
      if filter.length > 0 then some (utf8 "name eq " ++ filter) else none
    let t2 := t1 ++ [Call.InstancesList gce.projectID gce.zone listCall]
    match env.listInstances t2 with
    | .error err => (.returned ([], some err), t2)
    | .ok res =>
      let instances := res.Items.foldl
        (fun instances inst => instances ++ [inst.Name ++ suffix]) []
      (.returned (instances, none), t2)

/-! ## Vocabulary of the statements and concrete environments -/

/-- The trace after `k` rounds of the polling loop of `waitForRegionOp` started at trace
`t`: each round is one `time.Sleep` of ten seconds followed by one status query for the
name of the operation waited for. -/
def pollTrace (gce : GCECloud) (op : Operation) (region : GoString) (t : Trace) : Nat → Trace
  | 0 => t
  | k + 1 => pollTrace gce op region t k
      ++ [Call.Sleep tenSeconds, Call.RegionOperationsGet gce.projectID region op.Name]

/-- The outcome of the `k`-th status query (counting from `0`) of a polling loop started at
trace `t`. -/
def pollOutcome (env : Env) (gce : GCECloud) (op : Operation) (region : GoString)
    (t : Trace) (k : Nat) : Except GoError Operation :=
  env.operation (pollTrace gce op region t (k + 1))

/-- A status-query outcome that ends the polling: an error, or the status `"DONE"`. -/
def terminal : Except GoError Operation → Bool
  | .error _ => true
  | .ok pollOp => pollOp.Status = DONE

/-- The suffix `List` appends to each name: `"." + suffix` for a non-empty discovered
suffix, nothing otherwise (gce.go 239-241). -/
def dotted (suffix : GoString) : GoString :=
  if suffix.length > 0 then utf8 "." ++ suffix else suffix

/-- The filter `List` passes on: `"name eq " + filter` for a non-empty filter, none
otherwise (gce.go 243-245). -/
def listFilter (filter : GoString) : Option GoString :=
  if filter.length > 0 then some (utf8 "name eq " ++ filter) else none

/-- The error of the concrete environments below. -/
def notFound : GoError := ⟨utf8 "notFound"⟩

/-- An environment in which every call fails with `err`. -/
def failingEnv (err : GoError) : Env where
  operation := fun _ => .error err
  forwardingRule := fun _ => .error err
  getInstance := fun _ => .error err
  listInstances := fun _ => .error err
  output := fun _ => .error err

/-- The forwarding rule stored under `(project, region, name)` after the calls of a trace,
for a provider that stores every inserted rule until it is deleted. -/
def storedRule (project region name : GoString) (t : Trace) : Option ForwardingRule :=
  t.foldl (fun st c =>
    match c with
    | Call.ForwardingRulesInsert p r rule =>
      if p = project ∧ r = region ∧ rule.Name = name then some rule else st
    | Call.ForwardingRulesDelete p r n =>
      if p = project ∧ r = region ∧ n = name then none else st
    | _ => st) none

/-- A provider that accepts every mutation, reports it `"DONE"`, stores inserted forwarding
rules, and answers a rule lookup with the stored rule or with `notFound`. -/
def storingEnv : Env where
  operation := fun _ => .ok { Name := utf8 "operation-1", Status := DONE }
  forwardingRule := fun t =>
    match t.getLast? with
    | some (Call.ForwardingRulesGet p r n) =>
      match storedRule p r n t with
      | some rule => .ok rule
      | none => .error notFound
    | _ => .error notFound
  getInstance := fun _ => .error notFound
  listInstances := fun _ => .error notFound
  output := fun _ => .error notFound

/-- The number of status queries in a trace. -/
def countGets (t : Trace) : Nat :=
  t.countP (fun c => match c with
    | Call.RegionOperationsGet _ _ _ => true
    | _ => false)

/-- A provider that answers the `k`-th status query with the `k`-th element of `outcomes`
(`notFound` once the list is used up). -/
def scriptedEnv (outcomes : List (Except GoError Operation)) : Env where
  operation := fun t => (outcomes[countGets t - 1]?).getD (.error notFound)
  forwardingRule := fun _ => .error notFound
  getInstance := fun _ => .error notFound
  listInstances := fun _ => .error notFound
  output := fun _ => .error notFound

/-- An environment for the instance directory: `hostname -f` prints `full`, `hostname`
prints `short`, the provider lists `items` and returns `record` for every instance. -/
def directoryEnv (full short : Except GoError GoString) (items : Except GoError InstanceList)
    (record : Except GoError Instance) : Env where
  operation := fun _ => .error notFound
  forwardingRule := fun _ => .error notFound
  getInstance := fun _ => record
  listInstances := fun _ => items
  output := fun t =>
    match t.getLast? with
    | some (Call.Exec _ (_ :: _)) => full
    | _ => short

end GCE

set_option maxRecDepth 100000

namespace GCE

/-! ## Lemmas on the string primitives -/

theorem firstIndex?_eq_none_iff (b : UInt8) (s : GoString) :
    firstIndex? b s = none ↔ b ∉ s := by
  induction s with
  | nil => simp [firstIndex?]
  | cons c cs ih =>
    by_cases h : c = b
    · simp [firstIndex?, h]
    · have h2 : ¬ b = c := fun e => h e.symm
      simp [firstIndex?, h, h2, ih]

theorem firstIndex?_take (b : UInt8) (s : GoString) (i : Nat)
    (h : firstIndex? b s = some i) :
    s.take i = s.takeWhile (fun c => c != b) ∧ i < s.length := by
  induction s generalizing i with
  | nil => simp [firstIndex?] at h
  | cons c cs ih =>
    by_cases hc : c = b
    · simp [firstIndex?, hc] at h
      subst h
      simp [hc]
    · simp only [firstIndex?, hc, if_false, Option.map_eq_some'] at h
      obtain ⟨j, hj, rfl⟩ := h
      obtain ⟨h1, h2⟩ := ih j hj
      simp [List.takeWhile_cons, hc, h1, h2]

theorem takeWhile_ne_of_not_mem (b : UInt8) (s : GoString) (h : b ∉ s) :
    s.takeWhile (fun c => c != b) = s := by
  induction s with
  | nil => rfl
  | cons c cs ih =>
    have hc : ¬ c = b := fun e => h (by simp [e])
    have hcs : b ∉ cs := fun e => h (by simp [e])
    simp [List.takeWhile_cons, hc, ih hcs]

theorem stringsIndex_lt (s : GoString) (sep : UInt8) (h : stringsIndex s sep ≠ -1) :
    0 ≤ stringsIndex s sep ∧ (stringsIndex s sep).toNat < s.length := by
  unfold stringsIndex at *
  cases hi : firstIndex? sep s with
  | none => simp [hi] at h
  | some i => simpa using (firstIndex?_take sep s i hi).2

theorem canonicalizeInstanceName_eq_takeWhile (name : GoString) :
    canonicalizeInstanceName name = name.takeWhile (fun c => c != dot) := by
  unfold canonicalizeInstanceName stringsIndex
  cases hi : firstIndex? dot name with
  | none =>
    have := (firstIndex?_eq_none_iff dot name).1 hi
    simp [takeWhile_ne_of_not_mem dot name this]
  | some i =>
    have h1 := (firstIndex?_take dot name i hi).1
    have h2 : ((i : Int) ≠ -1) := by omega
    simp [h2, h1]

theorem lastIndex?_eq_none_iff (b : UInt8) (s : GoString) :
    lastIndex? b s = none ↔ b ∉ s := by
  induction s with
  | nil => simp [lastIndex?]
  | cons c cs ih =>
    cases hl : lastIndex? b cs with
    | some i =>
      have : ¬ b ∉ cs := fun e => by simp [ih.2 e] at hl
      simp only [lastIndex?, hl]
      simp at this
      simp [this]
    | none =>
      have hcs := ih.1 hl
      by_cases h : c = b
      · simp [lastIndex?, hl, h]
      · have h2 : ¬ b = c := fun e => h e.symm
        simp [lastIndex?, hl, h, h2, hcs]

theorem lastIndex?_append (b : UInt8) (r s : GoString) (h : b ∉ s) :
    lastIndex? b (r ++ b :: s) = some r.length := by
  induction r with
  | nil =>
    have := (lastIndex?_eq_none_iff b s).2 h
    simp [lastIndex?, this]
  | cons c cs ih => simp [lastIndex?, ih]

theorem stringsLastIndex_lt (s : GoString) (sep : UInt8) (h : stringsLastIndex s sep ≠ -1) :
    0 ≤ stringsLastIndex s sep ∧ (stringsLastIndex s sep).toNat < s.length := by
  unfold stringsLastIndex at *
  cases hi : lastIndex? sep s with
  | none => simp [hi] at h
  | some i =>
    have : ∀ (s : GoString) (i : Nat), lastIndex? sep s = some i → i < s.length := by
      intro s
      induction s with
      | nil => intro i hi; simp [lastIndex?] at hi
      | cons c cs ih =>
        intro i hi
        cases hl : lastIndex? sep cs with
        | some j =>
          simp [lastIndex?, hl] at hi
          have := ih j hl
          simp; omega
        | none =>
          by_cases hc : c = sep
          · simp [lastIndex?, hl, hc] at hi
            simp; omega
          · simp [lastIndex?, hl, hc] at hi
    simpa using this s i hi

end GCE

namespace GCE

/-! ## Naming normalizer -/

/-- C6: for every string `h`, canonicalizing twice equals canonicalizing once; the result
is `h` cut just before its first `'.'` (the longest prefix without a dot), and `h` itself
when `h` has no `'.'`. -/
theorem canonicalizeInstanceName_idempotent (h : GoString) :
    canonicalizeInstanceName (canonicalizeInstanceName h) = canonicalizeInstanceName h
    ∧ canonicalizeInstanceName h = h.takeWhile (fun c => c != dot)
    ∧ (∀ a b : GoString, dot ∉ a → h = a ++ utf8 "." ++ b → canonicalizeInstanceName h = a)
    ∧ (dot ∉ h → canonicalizeInstanceName h = h) := by
  refine ⟨?_, canonicalizeInstanceName_eq_takeWhile h, ?_, ?_⟩
  · rw [canonicalizeInstanceName_eq_takeWhile, canonicalizeInstanceName_eq_takeWhile]
    apply takeWhile_ne_of_not_mem
    intro hm
    have := List.mem_takeWhile_imp hm
    simp at this
  · intro a b ha hab
    subst hab
    rw [canonicalizeInstanceName_eq_takeWhile]
    have hd : utf8 "." = [dot] := by decide
    rw [hd, List.append_assoc, List.takeWhile_append_of_pos]
    · simp [List.takeWhile_cons]
    · intro c hc
      have : c ≠ dot := fun e => ha (e ▸ hc)
      simpa using this
  · intro hn
    rw [canonicalizeInstanceName_eq_takeWhile]
    exact takeWhile_ne_of_not_mem dot h hn

/-- C6 at concrete inputs: a dotted host name is cut at its first dot, a bare one is kept. -/
theorem canonicalizeInstanceName_idempotent_witness :
    canonicalizeInstanceName (utf8 "kubernetes-minion-2.c.my-proj.internal")
      = utf8 "kubernetes-minion-2"
    ∧ canonicalizeInstanceName (utf8 "kubernetes-minion-2") = utf8 "kubernetes-minion-2" :=
  ⟨(canonicalizeInstanceName_idempotent (utf8 "kubernetes-minion-2.c.my-proj.internal")).2.2.1
      (utf8 "kubernetes-minion-2") (utf8 "c.my-proj.internal") (by decide) (by decide),
   (canonicalizeInstanceName_idempotent (utf8 "kubernetes-minion-2")).2.2.2 (by decide)⟩

/-- C5: `getGceRegion (r ++ "-" ++ s)` is `r` with a nil error whenever `s` has no `'-'`;
`getGceRegion` fails exactly on the zones without `'-'`; `GetZone` returns the error of
`getGceRegion` on the stored zone and, when that is nil, the stored zone verbatim as
`FailureDomain` together with that region. -/
theorem getGceRegion_spec (r s zone : GoString) (gce : GCECloud) :
    (dash ∉ s → getGceRegion (r ++ utf8 "-" ++ s) = (r, none))
    ∧ ((getGceRegion zone).2 ≠ none ↔ dash ∉ zone)
    ∧ (GetZone gce).2 = (getGceRegion gce.zone).2
    ∧ ((getGceRegion gce.zone).2 = none →
        GetZone gce = ({ FailureDomain := gce.zone, Region := (getGceRegion gce.zone).1 }, none))
    ∧ ((GetZone gce).2 ≠ none ↔ dash ∉ gce.zone) := by
  have key : ∀ z : GoString, (getGceRegion z).2 ≠ none ↔ dash ∉ z := by
    intro z
    unfold getGceRegion stringsLastIndex
    cases hi : lastIndex? dash z with
    | none => simpa using (lastIndex?_eq_none_iff dash z).1 hi
    | some i =>
      have h2 : ((i : Int) ≠ -1) := by omega
      have : ¬ dash ∉ z := fun e => by simp [(lastIndex?_eq_none_iff dash z).2 e] at hi
      simpa [h2] using this
  have hz : (GetZone gce).2 = (getGceRegion gce.zone).2 := by
    unfold GetZone
    rcases hg : getGceRegion gce.zone with ⟨reg, _ | err⟩ <;> simp
  refine ⟨?_, key zone, hz, ?_, ?_⟩
  · intro hs
    have hd : utf8 "-" = [dash] := by decide
    unfold getGceRegion stringsLastIndex
    rw [hd, List.append_assoc]
    simp only [List.singleton_append, lastIndex?_append dash r s hs]
    have h2 : ((r.length : Int) ≠ -1) := by omega
    simp [h2]
  · intro hn
    unfold GetZone
    rcases hg : getGceRegion gce.zone with ⟨reg, _ | err⟩
    · simp
    · simp [hg] at hn
  · rw [hz]; exact key gce.zone

/-- C5 at concrete inputs: zone `us-central1-b` has region `us-central1`. -/
theorem getGceRegion_spec_witness :
    getGceRegion (utf8 "us-central1" ++ utf8 "-" ++ utf8 "b") = (utf8 "us-central1", none)
    ∧ GetZone { projectID := utf8 "p", zone := utf8 "us-central1-b" }
      = ({ FailureDomain := utf8 "us-central1-b", Region := utf8 "us-central1" }, none) :=
  ⟨(getGceRegion_spec (utf8 "us-central1") (utf8 "b") [] { projectID := [], zone := [] }).1 (by decide),
   (getGceRegion_spec [] [] [] { projectID := utf8 "p", zone := utf8 "us-central1-b" }).2.2.2.1
      (by decide)⟩

end GCE

namespace GCE

/-! ## Load balancer manager -/

theorem foldl_append_singleton_eq_map {α β : Type} (f : α → β) (xs : List α) (acc : List β) :
    xs.foldl (fun acc x => acc ++ [f x]) acc = acc ++ xs.map f := by
  induction xs generalizing acc with
  | nil => simp
  | cons x xs ih => simp [ih]

/-- C1: `DeleteTCPLoadBalancer` first issues the forwarding-rule delete.  If that fails,
nothing else is issued and its error is returned; if it succeeds, exactly one target-pool
delete for the same project, region and name follows and its error is returned. -/
theorem DeleteTCPLoadBalancer_spec (env : Env) (gce : GCECloud) (name region : GoString)
    (t : Trace) :
    (∀ err, env.operation (t ++ [Call.ForwardingRulesDelete gce.projectID region name])
        = .error err →
      gce.DeleteTCPLoadBalancer env name region t
        = (some err, t ++ [Call.ForwardingRulesDelete gce.projectID region name]))
    ∧ (∀ op, env.operation (t ++ [Call.ForwardingRulesDelete gce.projectID region name])
        = .ok op →
      gce.DeleteTCPLoadBalancer env name region t
        = (errOf (env.operation (t ++ [Call.ForwardingRulesDelete gce.projectID region name,
              Call.TargetPoolsDelete gce.projectID region name])),
           t ++ [Call.ForwardingRulesDelete gce.projectID region name,
              Call.TargetPoolsDelete gce.projectID region name])) := by
  constructor
  · intro err h
    simp [GCECloud.DeleteTCPLoadBalancer, h]
  · intro op h
    simp [GCECloud.DeleteTCPLoadBalancer, h]

/-- C1 at concrete inputs: with a provider that fails the rule delete, the only call is the
rule delete; with one that accepts it, the pool delete follows. -/
theorem DeleteTCPLoadBalancer_spec_witness :
    GCECloud.DeleteTCPLoadBalancer (failingEnv notFound)
        { projectID := utf8 "p", zone := utf8 "us-central1-b" } (utf8 "lb1")
        (utf8 "us-central1") []
      = (some notFound,
          [Call.ForwardingRulesDelete (utf8 "p") (utf8 "us-central1") (utf8 "lb1")])
    ∧ GCECloud.DeleteTCPLoadBalancer storingEnv
        { projectID := utf8 "p", zone := utf8 "us-central1-b" } (utf8 "lb1")
        (utf8 "us-central1") []
      = (none,
          [Call.ForwardingRulesDelete (utf8 "p") (utf8 "us-central1") (utf8 "lb1"),
           Call.TargetPoolsDelete (utf8 "p") (utf8 "us-central1") (utf8 "lb1")]) :=
  ⟨(DeleteTCPLoadBalancer_spec (failingEnv notFound)
      { projectID := utf8 "p", zone := utf8 "us-central1-b" } (utf8 "lb1")
      (utf8 "us-central1") []).1 notFound rfl,
   (DeleteTCPLoadBalancer_spec storingEnv
      { projectID := utf8 "p", zone := utf8 "us-central1-b" } (utf8 "lb1")
      (utf8 "us-central1") []).2 _ rfl⟩

end GCE

namespace GCE

theorem makeTargetPool_eq (env : Env) (gce : GCECloud) (name region : GoString)
    (hosts : List GoString) (t : Trace) :
    gce.makeTargetPool env name region hosts t =
      (match env.operation (t ++ [Call.TargetPoolsInsert gce.projectID region
          { Name := name, Instances := hosts.map (makeHostLink gce.projectID gce.zone) }]) with
        | .error err => ([], some err)
        | .ok _ => (utf8 "https://www.googleapis.com/compute/v1/projects/" ++ gce.projectID
            ++ utf8 "/regions/" ++ region ++ utf8 "/targetPools/" ++ name, none),
       t ++ [Call.TargetPoolsInsert gce.projectID region
          { Name := name, Instances := hosts.map (makeHostLink gce.projectID gce.zone) }]) := by
  unfold GCECloud.makeTargetPool
  simp only [foldl_append_singleton_eq_map, List.nil_append]
  split <;> simp_all

/-- The success path of `CreateTCPLoadBalancer`: once the pool insert is accepted, the
forwarding-rule insert follows and its error is the result. -/
theorem CreateTCPLoadBalancer_after_pool (env : Env) (gce : GCECloud) (name region : GoString)
    (port : Int) (hosts : List GoString) (t : Trace) :
    ∀ op, env.operation (t ++ [Call.TargetPoolsInsert gce.projectID region
          { Name := name,
            Instances := hosts.map (fun host =>
              utf8 "https://www.googleapis.com/compute/v1/projects/" ++ gce.projectID
                ++ utf8 "/zones/" ++ gce.zone ++ utf8 "/instances/"
                ++ canonicalizeInstanceName host) }]) = .ok op →
      gce.CreateTCPLoadBalancer env name region port hosts t
        = (errOf (env.operation (t ++ [Call.TargetPoolsInsert gce.projectID region
              { Name := name,
                Instances := hosts.map (fun host =>
                  utf8 "https://www.googleapis.com/compute/v1/projects/" ++ gce.projectID
                    ++ utf8 "/zones/" ++ gce.zone ++ utf8 "/instances/"
                    ++ canonicalizeInstanceName host) },
            Call.ForwardingRulesInsert gce.projectID region
              { Name := name, IPProtocol := utf8 "TCP", PortRange := strconvItoa port,
                Target := utf8 "https://www.googleapis.com/compute/v1/projects/"
                  ++ gce.projectID ++ utf8 "/regions/" ++ region ++ utf8 "/targetPools/"
                  ++ name }])),
           t ++ [Call.TargetPoolsInsert gce.projectID region
              { Name := name,
                Instances := hosts.map (fun host =>
                  utf8 "https://www.googleapis.com/compute/v1/projects/" ++ gce.projectID
                    ++ utf8 "/zones/" ++ gce.zone ++ utf8 "/instances/"
                    ++ canonicalizeInstanceName host) },
            Call.ForwardingRulesInsert gce.projectID region
              { Name := name, IPProtocol := utf8 "TCP", PortRange := strconvItoa port,
                Target := utf8 "https://www.googleapis.com/compute/v1/projects/"
                  ++ gce.projectID ++ utf8 "/regions/" ++ region ++ utf8 "/targetPools/"
                  ++ name }]) := by
  have hl : (fun host =>
      utf8 "https://www.googleapis.com/compute/v1/projects/" ++ gce.projectID
        ++ utf8 "/zones/" ++ gce.zone ++ utf8 "/instances/"
        ++ canonicalizeInstanceName host) = makeHostLink gce.projectID gce.zone := by
    funext host
    simp [makeHostLink]
  rw [hl]
  intro op h
  simp [GCECloud.CreateTCPLoadBalancer, makeTargetPool_eq, h]

/-- C2: `CreateTCPLoadBalancer` first issues one target-pool insert named `name` in
`region` whose instances are, in host order, the project/zone/instances URL of each
canonicalized host.  If that insert fails, its error is returned and nothing else is
issued; otherwise one forwarding-rule insert follows, with `Name = name`,
`IPProtocol = "TCP"`, `PortRange` the decimal string of `port` and `Target` the
project/region/targetPools URL of `name`, and the error of that insert is returned. -/
theorem CreateTCPLoadBalancer_spec (env : Env) (gce : GCECloud) (name region : GoString)
    (port : Int) (hosts : List GoString) (t : Trace) :
    (∀ err, env.operation (t ++ [Call.TargetPoolsInsert gce.projectID region
          { Name := name,
            Instances := hosts.map (fun host =>
              utf8 "https://www.googleapis.com/compute/v1/projects/" ++ gce.projectID
                ++ utf8 "/zones/" ++ gce.zone ++ utf8 "/instances/"
                ++ canonicalizeInstanceName host) }]) = .error err →
      gce.CreateTCPLoadBalancer env name region port hosts t
        = (some err, t ++ [Call.TargetPoolsInsert gce.projectID region
          { Name := name,
            Instances := hosts.map (fun host =>
              utf8 "https://www.googleapis.com/compute/v1/projects/" ++ gce.projectID
                ++ utf8 "/zones/" ++ gce.zone ++ utf8 "/instances/"
                ++ canonicalizeInstanceName host) }]))
    ∧ (∀ op, env.operation (t ++ [Call.TargetPoolsInsert gce.projectID region
          { Name := name,
            Instances := hosts.map (fun host =>
              utf8 "https://www.googleapis.com/compute/v1/projects/" ++ gce.projectID
                ++ utf8 "/zones/" ++ gce.zone ++ utf8 "/instances/"
                ++ canonicalizeInstanceName host) }]) = .ok op →
      gce.CreateTCPLoadBalancer env name region port hosts t
        = (errOf (env.operation (t ++ [Call.TargetPoolsInsert gce.projectID region
              { Name := name,
                Instances := hosts.map (fun host =>
                  utf8 "https://www.googleapis.com/compute/v1/projects/" ++ gce.projectID
                    ++ utf8 "/zones/" ++ gce.zone ++ utf8 "/instances/"
                    ++ canonicalizeInstanceName host) },
            Call.ForwardingRulesInsert gce.projectID region
              { Name := name, IPProtocol := utf8 "TCP", PortRange := strconvItoa port,
                Target := utf8 "https://www.googleapis.com/compute/v1/projects/"
                  ++ gce.projectID ++ utf8 "/regions/" ++ region ++ utf8 "/targetPools/"
                  ++ name }])),
           t ++ [Call.TargetPoolsInsert gce.projectID region
              { Name := name,
                Instances := hosts.map (fun host =>
                  utf8 "https://www.googleapis.com/compute/v1/projects/" ++ gce.projectID
                    ++ utf8 "/zones/" ++ gce.zone ++ utf8 "/instances/"
                    ++ canonicalizeInstanceName host) },
            Call.ForwardingRulesInsert gce.projectID region
              { Name := name, IPProtocol := utf8 "TCP", PortRange := strconvItoa port,
                Target := utf8 "https://www.googleapis.com/compute/v1/projects/"
                  ++ gce.projectID ++ utf8 "/regions/" ++ region ++ utf8 "/targetPools/"
                  ++ name }])) := by
  have hl : (fun host =>
      utf8 "https://www.googleapis.com/compute/v1/projects/" ++ gce.projectID
        ++ utf8 "/zones/" ++ gce.zone ++ utf8 "/instances/"
        ++ canonicalizeInstanceName host) = makeHostLink gce.projectID gce.zone := by
    funext host
    simp [makeHostLink]
  rw [hl]
  constructor
  · intro err h
    simp [GCECloud.CreateTCPLoadBalancer, makeTargetPool_eq, h]
  · intro op h
    simp [GCECloud.CreateTCPLoadBalancer, makeTargetPool_eq, h]

/-- C2 at the end-to-end scenario of the specification: project `p`, zone `us-central1-b`,
load balancer `lb1` in `us-central1` on port 80 with host `node-a.c.p.internal`; and the
same creation against a provider that rejects the pool insert. -/
theorem CreateTCPLoadBalancer_spec_witness :
    GCECloud.CreateTCPLoadBalancer storingEnv
        { projectID := utf8 "p", zone := utf8 "us-central1-b" } (utf8 "lb1")
        (utf8 "us-central1") 80 [utf8 "node-a.c.p.internal"] []
      = (none,
          [Call.TargetPoolsInsert (utf8 "p") (utf8 "us-central1")
            { Name := utf8 "lb1",
              Instances := [utf8
                "https://www.googleapis.com/compute/v1/projects/p/zones/us-central1-b/instances/node-a"] },
           Call.ForwardingRulesInsert (utf8 "p") (utf8 "us-central1")
            { Name := utf8 "lb1", IPProtocol := utf8 "TCP", PortRange := utf8 "80",
              Target := utf8
                "https://www.googleapis.com/compute/v1/projects/p/regions/us-central1/targetPools/lb1" }])
    ∧ GCECloud.CreateTCPLoadBalancer (failingEnv notFound)
        { projectID := utf8 "p", zone := utf8 "us-central1-b" } (utf8 "lb1")
        (utf8 "us-central1") 80 [utf8 "node-a.c.p.internal"] []
      = (some notFound,
          [Call.TargetPoolsInsert (utf8 "p") (utf8 "us-central1")
            { Name := utf8 "lb1",
              Instances := [utf8
                "https://www.googleapis.com/compute/v1/projects/p/zones/us-central1-b/instances/node-a"] }]) :=
  ⟨((CreateTCPLoadBalancer_spec storingEnv
      { projectID := utf8 "p", zone := utf8 "us-central1-b" } (utf8 "lb1")
      (utf8 "us-central1") 80 [utf8 "node-a.c.p.internal"] []).2 _ rfl).trans (by decide),
   ((CreateTCPLoadBalancer_spec (failingEnv notFound)
      { projectID := utf8 "p", zone := utf8 "us-central1-b" } (utf8 "lb1")
      (utf8 "us-central1") 80 [utf8 "node-a.c.p.internal"] []).1 notFound rfl).trans
      (by decide)⟩

end GCE

namespace GCE

/-- The request `UpdateTCPLoadBalancer` submits: one add-instances call against pool `name`
whose references are the host strings exactly as passed in, in host order. -/
theorem UpdateTCPLoadBalancer_eq (env : Env) (gce : GCECloud) (name region : GoString)
    (hosts : List GoString) (t : Trace) :
    gce.UpdateTCPLoadBalancer env name region hosts t
      = (errOf (env.operation (t ++ [Call.TargetPoolsAddInstance gce.projectID region name
            { Instances := hosts.map InstanceReference.mk }])),
         t ++ [Call.TargetPoolsAddInstance gce.projectID region name
            { Instances := hosts.map InstanceReference.mk }]) := by
  unfold GCECloud.UpdateTCPLoadBalancer
  simp only [foldl_append_singleton_eq_map, List.nil_append]

/-- C3 (the code departs from the claim): for host `node-a.c.p.internal` in project `p`,
zone `us-central1-b`, `UpdateTCPLoadBalancer` sends the reference `node-a.c.p.internal`
itself, which is not the link `makeHostLink` builds for that host (the one
`CreateTCPLoadBalancer` puts in the pool). -/
theorem UpdateTCPLoadBalancer_sends_raw_host :
    GCECloud.UpdateTCPLoadBalancer storingEnv
        { projectID := utf8 "p", zone := utf8 "us-central1-b" } (utf8 "lb1")
        (utf8 "us-central1") [utf8 "node-a.c.p.internal"] []
      = (none,
          [Call.TargetPoolsAddInstance (utf8 "p") (utf8 "us-central1") (utf8 "lb1")
            { Instances := [{ Instance := utf8 "node-a.c.p.internal" }] }])
    ∧ makeHostLink (utf8 "p") (utf8 "us-central1-b") (utf8 "node-a.c.p.internal")
      = utf8 "https://www.googleapis.com/compute/v1/projects/p/zones/us-central1-b/instances/node-a"
    ∧ utf8 "node-a.c.p.internal"
      ≠ makeHostLink (utf8 "p") (utf8 "us-central1-b") (utf8 "node-a.c.p.internal") := by
  refine ⟨by decide, by decide, by decide⟩

theorem storedRule_append_insert (project region : GoString) (rule : ForwardingRule)
    (t : Trace) :
    storedRule project region rule.Name
      (t ++ [Call.ForwardingRulesInsert project region rule,
             Call.ForwardingRulesGet project region rule.Name]) = some rule := by
  simp [storedRule, List.foldl_append]

/-- C8: `TCPLoadBalancerExists` issues one forwarding-rule lookup and returns the boolean
`false` together with exactly the error of that lookup.  In particular, right after a
`CreateTCPLoadBalancer` on a provider that stores inserted rules (which succeeds), the
lookup finds the inserted rule, the error is nil and the boolean is still `false`. -/
theorem TCPLoadBalancerExists_always_false (env : Env) (gce : GCECloud)
    (name region : GoString) (port : Int) (hosts : List GoString) (t : Trace) :
    gce.TCPLoadBalancerExists env name region t
      = ((false, errOf (env.forwardingRule
            (t ++ [Call.ForwardingRulesGet gce.projectID region name]))),
         t ++ [Call.ForwardingRulesGet gce.projectID region name])
    ∧ (gce.CreateTCPLoadBalancer storingEnv name region port hosts t).1 = none
    ∧ storingEnv.forwardingRule
        ((gce.CreateTCPLoadBalancer storingEnv name region port hosts t).2
          ++ [Call.ForwardingRulesGet gce.projectID region name])
      = .ok { Name := name, IPProtocol := utf8 "TCP", PortRange := strconvItoa port,
              Target := utf8 "https://www.googleapis.com/compute/v1/projects/"
                ++ gce.projectID ++ utf8 "/regions/" ++ region ++ utf8 "/targetPools/"
                ++ name }
    ∧ (gce.TCPLoadBalancerExists storingEnv name region
        (gce.CreateTCPLoadBalancer storingEnv name region port hosts t).2).1
      = (false, none) := by
  have hc := CreateTCPLoadBalancer_after_pool storingEnv gce name region port hosts t
    { Name := utf8 "operation-1", Status := DONE } rfl
  have hf : storingEnv.forwardingRule
        ((gce.CreateTCPLoadBalancer storingEnv name region port hosts t).2
          ++ [Call.ForwardingRulesGet gce.projectID region name])
      = .ok { Name := name, IPProtocol := utf8 "TCP", PortRange := strconvItoa port,
              Target := utf8 "https://www.googleapis.com/compute/v1/projects/"
                ++ gce.projectID ++ utf8 "/regions/" ++ region ++ utf8 "/targetPools/"
                ++ name } := by
    rw [hc]
    have hs := storedRule_append_insert gce.projectID region
      { Name := name, IPProtocol := utf8 "TCP", PortRange := strconvItoa port,
        Target := utf8 "https://www.googleapis.com/compute/v1/projects/"
          ++ gce.projectID ++ utf8 "/regions/" ++ region ++ utf8 "/targetPools/"
          ++ name }
      (t ++ [Call.TargetPoolsInsert gce.projectID region
        { Name := name,
          Instances := hosts.map (fun host =>
            utf8 "https://www.googleapis.com/compute/v1/projects/" ++ gce.projectID
              ++ utf8 "/zones/" ++ gce.zone ++ utf8 "/instances/"
              ++ canonicalizeInstanceName host) }])
    simp only [List.append_assoc, List.singleton_append, List.cons_append,
      List.nil_append] at hs ⊢
    simp only [storingEnv, List.getLast?_append, List.getLast?_cons_cons,
      List.getLast?_singleton, Option.or_some]
    rw [hs]
  refine ⟨rfl, ?_, hf, ?_⟩
  · rw [hc]; rfl
  · simp only [GCECloud.TCPLoadBalancerExists, hf]
    rfl

end GCE

namespace GCE

/-! ## Operation waiter -/

theorem pollTrace_succ_left (gce : GCECloud) (op : Operation) (region : GoString)
    (t : Trace) (k : Nat) :
    pollTrace gce op region t (k + 1)
      = pollTrace gce op region
          (t ++ [Call.Sleep tenSeconds, Call.RegionOperationsGet gce.projectID region op.Name])
          k := by
  induction k with
  | zero => rfl
  | succ k ih =>
    show pollTrace gce op region t (k + 1) ++ _ = pollTrace gce op region _ k ++ _
    rw [ih]

theorem waitLoop_done (env : Env) (gce : GCECloud) (op : Operation) (region : GoString)
    (fuel : Nat) (pollOp : Operation) (t : Trace) (h : pollOp.Status = DONE) :
    waitLoop env gce op region fuel pollOp t = some (none, t) := by
  cases fuel <;> simp [waitLoop, h]

theorem waitLoop_poll (env : Env) (gce : GCECloud) (op : Operation) (region : GoString)
    (k : Nat) :
    ∀ (fuel : Nat) (pollOp : Operation) (t : Trace), pollOp.Status ≠ DONE → k < fuel →
      (∀ j, j < k → terminal (pollOutcome env gce op region t j) = false) →
      terminal (pollOutcome env gce op region t k) = true →
      waitLoop env gce op region fuel pollOp t
        = some (errOf (pollOutcome env gce op region t k),
                pollTrace gce op region t (k + 1)) := by
  induction k with
  | zero =>
    intro fuel pollOp t hne hlt _ hterm
    obtain ⟨f, rfl⟩ : ∃ f, fuel = f + 1 := ⟨fuel - 1, by omega⟩
    have hp : pollOutcome env gce op region t 0
        = env.operation (t ++ [Call.Sleep tenSeconds]
            ++ [Call.RegionOperationsGet gce.projectID region op.Name]) := by
      simp [pollOutcome, pollTrace]
    have ht : pollTrace gce op region t 1
        = t ++ [Call.Sleep tenSeconds]
            ++ [Call.RegionOperationsGet gce.projectID region op.Name] := by
      simp [pollTrace]
    rw [hp] at hterm ⊢
    rw [ht]
    rw [waitLoop]
    simp only [hne, ne_eq, not_false_eq_true, if_true]
    cases ho : env.operation (t ++ [Call.Sleep tenSeconds]
        ++ [Call.RegionOperationsGet gce.projectID region op.Name]) with
    | error err => simp [errOf]
    | ok p =>
      rw [ho] at hterm
      have hd : p.Status = DONE := by simpa [terminal] using hterm
      simp [errOf, waitLoop_done env gce op region f p _ hd]
  | succ k ih =>
    intro fuel pollOp t hne hlt hbefore hterm
    obtain ⟨f, rfl⟩ : ∃ f, fuel = f + 1 := ⟨fuel - 1, by omega⟩
    have hp : pollOutcome env gce op region t 0
        = env.operation (t ++ [Call.Sleep tenSeconds]
            ++ [Call.RegionOperationsGet gce.projectID region op.Name]) := by
      simp [pollOutcome, pollTrace]
    have h0 := hbefore 0 (by omega)
    rw [hp] at h0
    have hshift : ∀ j, pollOutcome env gce op region t (j + 1)
        = pollOutcome env gce op region
            (t ++ [Call.Sleep tenSeconds]
              ++ [Call.RegionOperationsGet gce.projectID region op.Name]) j := by
      intro j
      unfold pollOutcome
      rw [pollTrace_succ_left gce op region t (j + 1)]
      simp
    rw [waitLoop]
    simp only [hne, ne_eq, not_false_eq_true, if_true]
    cases ho : env.operation (t ++ [Call.Sleep tenSeconds]
        ++ [Call.RegionOperationsGet gce.projectID region op.Name]) with
    | error err =>
      rw [ho] at h0
      simp [terminal] at h0
    | ok p =>
      rw [ho] at h0
      have hd : p.Status ≠ DONE := by simpa [terminal] using h0
      simp only
      rw [ih f p _ hd (by omega)
        (fun j hj => by rw [← hshift j]; exact hbefore (j + 1) (by omega))
        (by rw [← hshift k]; exact hterm)]
      rw [← hshift k, pollTrace_succ_left gce op region t (k + 1)]
      simp

/-- C9: when the operation's own status is `"DONE"`, `waitForRegionOp` returns nil and
issues nothing (no sleep, no status query).  Otherwise, if the `k`-th status query is the
first whose outcome is an error or the status `"DONE"`, `waitForRegionOp` (with any
iteration bound above `k`) returns that error, or nil for `"DONE"`, and what it issued is
exactly `k + 1` rounds of one ten-second sleep followed by one status query for the name of
the original operation, and nothing after. -/
theorem waitForRegionOp_spec (env : Env) (gce : GCECloud) (op : Operation)
    (region : GoString) (t : Trace) :
    (op.Status = DONE → ∀ fuel, gce.waitForRegionOp env op region fuel t = some (none, t))
    ∧ (op.Status ≠ DONE → ∀ k,
        (∀ j, j < k → terminal (pollOutcome env gce op region t j) = false) →
        terminal (pollOutcome env gce op region t k) = true →
        ∀ fuel, k < fuel →
          gce.waitForRegionOp env op region fuel t
            = some (errOf (pollOutcome env gce op region t k),
                    pollTrace gce op region t (k + 1))) := by
  constructor
  · intro h fuel
    exact waitLoop_done env gce op region fuel op t h
  · intro h k hbefore hterm fuel hlt
    exact waitLoop_poll env gce op region k fuel op t h hlt hbefore hterm

/-- C9 at concrete inputs: an operation already `"DONE"` costs nothing; one that is
`"RUNNING"`, then `"RUNNING"`, then `"DONE"` costs three sleep-and-query rounds and returns
nil; one whose second query fails costs two rounds and returns that error. -/
theorem waitForRegionOp_spec_witness :
    GCECloud.waitForRegionOp (failingEnv notFound)
        { projectID := utf8 "p", zone := utf8 "us-central1-b" }
        { Name := utf8 "operation-7", Status := utf8 "DONE" } (utf8 "us-central1") 0 []
      = some (none, [])
    ∧ GCECloud.waitForRegionOp
        (scriptedEnv [.ok { Name := utf8 "operation-7", Status := utf8 "RUNNING" },
                      .ok { Name := utf8 "operation-7", Status := utf8 "RUNNING" },
                      .ok { Name := utf8 "operation-7", Status := utf8 "DONE" }])
        { projectID := utf8 "p", zone := utf8 "us-central1-b" }
        { Name := utf8 "operation-7", Status := utf8 "PENDING" } (utf8 "us-central1") 3 []
      = some (none,
          [Call.Sleep 10000000000,
           Call.RegionOperationsGet (utf8 "p") (utf8 "us-central1") (utf8 "operation-7"),
           Call.Sleep 10000000000,
           Call.RegionOperationsGet (utf8 "p") (utf8 "us-central1") (utf8 "operation-7"),
           Call.Sleep 10000000000,
           Call.RegionOperationsGet (utf8 "p") (utf8 "us-central1") (utf8 "operation-7")])
    ∧ GCECloud.waitForRegionOp
        (scriptedEnv [.ok { Name := utf8 "operation-7", Status := utf8 "RUNNING" },
                      .error ⟨utf8 "timeout"⟩,
                      .ok { Name := utf8 "operation-7", Status := utf8 "DONE" }])
        { projectID := utf8 "p", zone := utf8 "us-central1-b" }
        { Name := utf8 "operation-7", Status := utf8 "PENDING" } (utf8 "us-central1") 5 []
      = some (some ⟨utf8 "timeout"⟩,
          [Call.Sleep 10000000000,
           Call.RegionOperationsGet (utf8 "p") (utf8 "us-central1") (utf8 "operation-7"),
           Call.Sleep 10000000000,
           Call.RegionOperationsGet (utf8 "p") (utf8 "us-central1") (utf8 "operation-7")]) :=
  ⟨(waitForRegionOp_spec (failingEnv notFound)
      { projectID := utf8 "p", zone := utf8 "us-central1-b" }
      { Name := utf8 "operation-7", Status := utf8 "DONE" } (utf8 "us-central1") []).1
      (by decide) 0,
   ((waitForRegionOp_spec
      (scriptedEnv [.ok { Name := utf8 "operation-7", Status := utf8 "RUNNING" },
                    .ok { Name := utf8 "operation-7", Status := utf8 "RUNNING" },
                    .ok { Name := utf8 "operation-7", Status := utf8 "DONE" }])
      { projectID := utf8 "p", zone := utf8 "us-central1-b" }
      { Name := utf8 "operation-7", Status := utf8 "PENDING" } (utf8 "us-central1") []).2
      (by decide) 2 (by decide) (by decide) 3 (by decide)).trans (by decide),
   ((waitForRegionOp_spec
      (scriptedEnv [.ok { Name := utf8 "operation-7", Status := utf8 "RUNNING" },
                    .error ⟨utf8 "timeout"⟩,
                    .ok { Name := utf8 "operation-7", Status := utf8 "DONE" }])
      { projectID := utf8 "p", zone := utf8 "us-central1-b" }
      { Name := utf8 "operation-7", Status := utf8 "PENDING" } (utf8 "us-central1") []).2
      (by decide) 1 (by decide) (by decide) 5 (by decide)).trans (by decide)⟩

end GCE

namespace GCE

/-! ## Instance directory -/

/-- C4 (the code departs from the claim): when the provider's lookup succeeds with a record
that has no network interface, or whose first network interface has no access
configuration, `IPAddress` does not return at all: indexing with `[0]` panics, whatever
the instance name, the adapter identity and `net.ParseIP` are. -/
theorem IPAddress_panics_without_address (parseIP : GoString → Option IP)
    (gce : GCECloud) (inst name : GoString) (rest : List NetworkInterface) (t : Trace) :
    GCECloud.IPAddress
        (directoryEnv (.error notFound) (.error notFound) (.error notFound)
          (.ok { Name := name, NetworkInterfaces := [] }))
        parseIP gce inst t
      = (.panicked,
         t ++ [Call.InstancesGet gce.projectID gce.zone (canonicalizeInstanceName inst)])
    ∧ GCECloud.IPAddress
        (directoryEnv (.error notFound) (.error notFound) (.error notFound)
          (.ok { Name := name, NetworkInterfaces := { AccessConfigs := [] } :: rest }))
        parseIP gce inst t
      = (.panicked,
         t ++ [Call.InstancesGet gce.projectID gce.zone (canonicalizeInstanceName inst)]) := by
  constructor <;> simp [GCECloud.IPAddress, directoryEnv]

/-- C10 (the code departs from the claim): when `hostname -f` prints `localhost` and
`hostname` prints `kubernetes-master`, the first output is shorter than the second, the
slice `fullHostname[len(hostname):]` is out of range and `fqdnSuffix` panics after the two
queries; `List` panics with it. -/
theorem fqdnSuffix_panics_on_short_full_name :
    fqdnSuffix
        (directoryEnv (.ok (utf8 "localhost\n")) (.ok (utf8 "kubernetes-master\n"))
          (.ok { Items := [] }) (.error notFound)) []
      = (.panicked,
         [Call.Exec (utf8 "hostname") [utf8 "-f"], Call.Exec (utf8 "hostname") []])
    ∧ (GCECloud.List
        (directoryEnv (.ok (utf8 "localhost\n")) (.ok (utf8 "kubernetes-master\n"))
          (.ok { Items := [] }) (.error notFound))
        { projectID := utf8 "p", zone := utf8 "us-central1-b" } [] []).1
      = .panicked := by
  constructor <;> decide

/-- C7: when the suffix discovery succeeds with `suffix` and the provider's list call
succeeds, `List` returns with a nil error the provider's names, in the provider's order
and number, each followed by the caller-domain suffix (`"." + suffix`, or nothing when
`suffix` is empty); zero instances give the empty sequence and a nil error. -/
theorem List_spec (env : Env) (gce : GCECloud) (filter suffix : GoString) (t t1 : Trace)
    (res : InstanceList)
    (hs : fqdnSuffix env t = (.returned (suffix, none), t1))
    (hl : env.listInstances
        (t1 ++ [Call.InstancesList gce.projectID gce.zone (listFilter filter)]) = .ok res) :
    gce.List env filter t
      = (.returned (res.Items.map (fun inst => inst.Name ++ dotted suffix), none),
         t1 ++ [Call.InstancesList gce.projectID gce.zone (listFilter filter)])
    ∧ (res.Items.map (fun inst => inst.Name ++ dotted suffix)).length = res.Items.length
    ∧ (∀ i (h : i < res.Items.length),
        (res.Items.map (fun inst => inst.Name ++ dotted suffix))[i]?
          = some ((res.Items.get ⟨i, h⟩).Name ++ dotted suffix))
    ∧ (res.Items = [] →
        gce.List env filter t
          = (.returned ([], none),
             t1 ++ [Call.InstancesList gce.projectID gce.zone (listFilter filter)])) := by
  have main : gce.List env filter t
      = (.returned (res.Items.map (fun inst => inst.Name ++ dotted suffix), none),
         t1 ++ [Call.InstancesList gce.projectID gce.zone (listFilter filter)]) := by
    unfold GCECloud.List
    rw [hs]
    simp only [listFilter] at hl
    simp only [hl, foldl_append_singleton_eq_map, List.nil_append, dotted, listFilter]
  refine ⟨main, by simp, ?_, ?_⟩
  · intro i h
    simp [List.getElem?_eq_getElem h]
  · intro he
    rw [main, he]
    rfl

/-- C7 at the scenario of the specification: `hostname -f` prints
`master.example.internal`, `hostname` prints `master`, the provider lists `web-1` and
`web-2`; and the same caller against a provider that lists nothing. -/
theorem List_spec_witness :
    GCECloud.List
        (directoryEnv (.ok (utf8 "master.example.internal\n")) (.ok (utf8 "master\n"))
          (.ok { Items := [{ Name := utf8 "web-1", NetworkInterfaces := [] },
                           { Name := utf8 "web-2", NetworkInterfaces := [] }] })
          (.error notFound))
        { projectID := utf8 "p", zone := utf8 "us-central1-b" } [] []
      = (.returned ([utf8 "web-1.example.internal", utf8 "web-2.example.internal"], none),
         [Call.Exec (utf8 "hostname") [utf8 "-f"], Call.Exec (utf8 "hostname") [],
          Call.InstancesList (utf8 "p") (utf8 "us-central1-b") none])
    ∧ GCECloud.List
        (directoryEnv (.ok (utf8 "master.example.internal\n")) (.ok (utf8 "master\n"))
          (.ok { Items := [] }) (.error notFound))
        { projectID := utf8 "p", zone := utf8 "us-central1-b" } [] []
      = (.returned ([], none),
         [Call.Exec (utf8 "hostname") [utf8 "-f"], Call.Exec (utf8 "hostname") [],
          Call.InstancesList (utf8 "p") (utf8 "us-central1-b") none]) :=
  ⟨((List_spec
      (directoryEnv (.ok (utf8 "master.example.internal\n")) (.ok (utf8 "master\n"))
        (.ok { Items := [{ Name := utf8 "web-1", NetworkInterfaces := [] },
                         { Name := utf8 "web-2", NetworkInterfaces := [] }] })
        (.error notFound))
      { projectID := utf8 "p", zone := utf8 "us-central1-b" } [] (utf8 "example.internal") []
      [Call.Exec (utf8 "hostname") [utf8 "-f"], Call.Exec (utf8 "hostname") []]
      { Items := [{ Name := utf8 "web-1", NetworkInterfaces := [] },
                  { Name := utf8 "web-2", NetworkInterfaces := [] }] }
      (by decide) rfl).1).trans (by decide),
   (List_spec
      (directoryEnv (.ok (utf8 "master.example.internal\n")) (.ok (utf8 "master\n"))
        (.ok { Items := [] }) (.error notFound))
      { projectID := utf8 "p", zone := utf8 "us-central1-b" } [] (utf8 "example.internal") []
      [Call.Exec (utf8 "hostname") [utf8 "-f"], Call.Exec (utf8 "hostname") []]
      { Items := [] } (by decide) rfl).2.2.2 rfl⟩

end GCE

namespace GCE

/-! ## The part of `fqdnSuffix` that does hold -/

theorem decodeRune_width_pos (b : UInt8) (rest : GoString) :
    1 ≤ (decodeRune (b :: rest)).2 := by
  rcases rest with _ | ⟨b1, _ | ⟨b2, _ | ⟨b3, r⟩⟩⟩ <;> simp only [decodeRune] <;>
    split_ifs <;> simp

theorem decodeRune_append_newline (b : UInt8) (rest : GoString) :
    decodeRune (b :: (rest ++ [10])) = decodeRune (b :: rest) := by
  have h10 : isCont 10 = false := by decide
  rcases rest with _ | ⟨b1, _ | ⟨b2, _ | ⟨b3, r⟩⟩⟩ <;> simp [decodeRune, h10]

theorem decodeLastRune_append_newline (d : GoString) :
    decodeLastRune (d ++ [10]) = (10, 1) := by
  have h' : ((d ++ [10]).getD ((d ++ [10]).length - 1) 0) = 10 := by
    simp [List.getD_eq_getElem?_getD]
  have hne : (d ++ [10]).length ≠ 0 := by simp
  have hlt : (10 : UInt8).toNat < 0x80 := by decide
  unfold decodeLastRune
  simp only [hne, if_false, h', hlt, if_true]
  rfl

theorem trimRightSpace_succ_append_newline (n : Nat) (d : GoString) :
    trimRightSpace (n + 1) (d ++ [10]) = trimRightSpace n d := by
  have hsp : isSpace 10 = true := by decide
  obtain ⟨c, cs, hc⟩ : ∃ c cs, d ++ [10] = c :: cs := by
    cases d with
    | nil => exact ⟨10, [], rfl⟩
    | cons b rest => exact ⟨b, rest ++ [10], List.cons_append _ _ _⟩
  rw [hc]
  simp only [trimRightSpace]
  rw [← hc, decodeLastRune_append_newline]
  simp only [hsp, if_true]
  congr 1
  simp

theorem trimLeftSpace_length_le (fuel : Nat) (s : GoString) :
    (trimLeftSpace fuel s).length ≤ s.length := by
  induction fuel generalizing s with
  | zero => simp [trimLeftSpace]
  | succ n ih =>
    cases s with
    | nil => simp [trimLeftSpace]
    | cons b rest =>
      simp only [trimLeftSpace]
      split
      · exact (ih _).trans (by simp)
      · exact le_refl _

theorem trimRightSpace_length_le (fuel : Nat) (s : GoString) :
    (trimRightSpace fuel s).length ≤ s.length := by
  induction fuel generalizing s with
  | zero => simp [trimRightSpace]
  | succ n ih =>
    cases s with
    | nil => simp [trimRightSpace]
    | cons b rest =>
      simp only [trimRightSpace]
      split
      · exact (ih _).trans (by simp)
      · exact le_refl _

theorem stringsTrimSpace_append_newline (d : GoString) (hd : stringsTrimSpace d = d) :
    stringsTrimSpace (d ++ [10]) = d := by
  cases d with
  | nil => decide
  | cons b rest =>
    unfold stringsTrimSpace at hd
    have h1 := trimLeftSpace_length_le (b :: rest).length (b :: rest)
    have h2 := trimRightSpace_length_le (b :: rest).length
      (trimLeftSpace (b :: rest).length (b :: rest))
    rw [hd] at h2
    have hns : isSpace (decodeRune (b :: rest)).1 = false := by
      by_contra hc
      have hc' : isSpace (decodeRune (b :: rest)).1 = true := by simpa using hc
      have hw := decodeRune_width_pos b rest
      have h3 : (trimLeftSpace (b :: rest).length (b :: rest)).length
          ≤ ((b :: rest).drop (decodeRune (b :: rest)).2).length := by
        simp only [List.length_cons, trimLeftSpace, hc', if_true]
        exact trimLeftSpace_length_le _ _
      simp only [List.length_drop, List.length_cons] at h3 h2
      omega
    have hl : trimLeftSpace (b :: rest).length (b :: rest) = b :: rest := by
      simp only [List.length_cons, trimLeftSpace, hns]
      simp
    rw [hl] at hd
    unfold stringsTrimSpace
    have hlen : (b :: rest ++ [10]).length = (b :: rest).length + 1 := by simp
    have hl2 : trimLeftSpace ((b :: rest).length + 1) (b :: rest ++ [10])
        = b :: rest ++ [10] := by
      rw [List.cons_append]
      simp only [trimLeftSpace, decodeRune_append_newline, hns]
      simp
    rw [hlen, hl2, trimRightSpace_succ_append_newline, hd]

/-- The part of `fqdnSuffix` that holds: a failing query gives its error and an empty
suffix; otherwise, when the full name is at least as long as the short one, the result is
the remainder of the full name after `len(hostname)` bytes, trimmed.  In particular outputs
`h + "\n"` and `h + "." + d + "\n"` give `d` when `d` has no leading or trailing white
space, and equal outputs give the empty string. -/
theorem fqdnSuffix_in_range (env : Env) (t : Trace) (h d out : GoString)
    (hd : stringsTrimSpace d = d) :
    (∀ err, env.output (t ++ [Call.Exec (utf8 "hostname") [utf8 "-f"]]) = .error err →
      fqdnSuffix env t
        = (.returned ([], some err), t ++ [Call.Exec (utf8 "hostname") [utf8 "-f"]]))
    ∧ (∀ err, env.output (t ++ [Call.Exec (utf8 "hostname") [utf8 "-f"]]) = .ok out →
      env.output (t ++ [Call.Exec (utf8 "hostname") [utf8 "-f"],
        Call.Exec (utf8 "hostname") []]) = .error err →
      fqdnSuffix env t
        = (.returned ([], some err),
           t ++ [Call.Exec (utf8 "hostname") [utf8 "-f"], Call.Exec (utf8 "hostname") []]))
    ∧ (env.output (t ++ [Call.Exec (utf8 "hostname") [utf8 "-f"]])
        = .ok (h ++ utf8 "." ++ d ++ utf8 "\n") →
      env.output (t ++ [Call.Exec (utf8 "hostname") [utf8 "-f"],
        Call.Exec (utf8 "hostname") []]) = .ok (h ++ utf8 "\n") →
      fqdnSuffix env t
        = (.returned (d, none),
           t ++ [Call.Exec (utf8 "hostname") [utf8 "-f"], Call.Exec (utf8 "hostname") []]))
    ∧ (env.output (t ++ [Call.Exec (utf8 "hostname") [utf8 "-f"]]) = .ok out →
      env.output (t ++ [Call.Exec (utf8 "hostname") [utf8 "-f"],
        Call.Exec (utf8 "hostname") []]) = .ok out →
      fqdnSuffix env t
        = (.returned ([], none),
           t ++ [Call.Exec (utf8 "hostname") [utf8 "-f"], Call.Exec (utf8 "hostname") []])) := by
  have hnl : utf8 "\n" = [10] := by decide
  have hdot : utf8 "." = [46] := by decide
  refine ⟨?_, ?_, ?_, ?_⟩
  · intro err h1
    simp [fqdnSuffix, h1]
  · intro err h1 h2
    simp only [fqdnSuffix, h1]
    simp only [List.append_assoc, List.singleton_append, h2]
  · intro h1 h2
    simp only [fqdnSuffix, h1]
    simp only [List.append_assoc, List.singleton_append, h2]
    have hlen : (h ++ utf8 "\n").length ≤ (h ++ (utf8 "." ++ (d ++ utf8 "\n"))).length := by
      simp [hnl, hdot]
    rw [if_pos hlen]
    have hdrop : (h ++ (utf8 "." ++ (d ++ utf8 "\n"))).drop (h ++ utf8 "\n").length
        = d ++ [10] := by
      simp [hnl, hdot, List.drop_append]
    rw [hdrop, stringsTrimSpace_append_newline d hd]
  · intro h1 h2
    simp only [fqdnSuffix, h1]
    simp only [List.append_assoc, List.singleton_append, h2]
    simp
    decide

end GCE
